import Mathlib

/-!
Verification of the Cerina Protocol Foundry orchestration core.

The definitions below are a shallow embedding of the Python backend:
`backend/models/state.py` (the blackboard state and its merge contract),
`backend/agents/supervisor.py` (the deterministic routing policy),
`backend/agents/base.py` (agent invocation and error recovery),
`backend/agents/clinical_critic.py` (the clinical scoring arithmetic),
`backend/core/graph.py` (the LangGraph workflow topology) and
`backend/core/checkpointer.py` (the checkpoint store).

Machine timestamps, uuids and LLM outputs are nondeterministic inputs of the
code; they are passed explicitly as `String` parameters or oracle events.
Numeric scores are modelled as rationals.
-/

/-- Severity levels of `SafetySeverity` in `models/state.py`. -/
inductive Severity
  | low
  | medium
  | high
  | critical
deriving DecidableEq, Repr

/-- A safety flag record (`SafetyFlag` in `models/state.py`), as the dict
carried in the `safety_flags` list of the state. -/
structure SafetyFlag where
  id : String
  flag_type : String
  severity : Severity
  details : String
  location : Option String
  resolved : Bool
  resolution_notes : Option String
  flagged_at : String
deriving DecidableEq, Repr

/-- A versioned draft (`DraftVersion` in `models/state.py`). -/
structure DraftVersion where
  version : Nat
  content : String
  agent : String
  timestamp : String
  changes_summary : Option String
deriving DecidableEq, Repr

/-- One note left by an agent via `BaseAgent.add_note` in `agents/base.py`:
a dict with `note`, `timestamp` and `iteration` keys. -/
structure Note where
  note : String
  timestamp : String
  iteration : Nat
deriving DecidableEq, Repr

/-- A debate record (`DebateEntry` in `models/state.py`), as produced by
`BaseAgent.create_debate_entry`. -/
structure DebateEntry where
  from_agent : String
  to_agent : Option String
  message : String
  message_type : String
  iteration : Nat
  timestamp : String
deriving DecidableEq, Repr

/-- A supervisor routing record (the decision dict built in
`SupervisorAgent.process`). -/
structure DecisionRecord where
  id : String
  decision : String
  reasoning : String
  next_agent : String
  should_continue : Bool
  iteration : Nat
  timestamp : String
deriving DecidableEq, Repr

/-- A chat message dict appended to the `messages` list of the state. -/
structure Message where
  role : String
  agent : String
  content : String
  timestamp : String
deriving DecidableEq, Repr

/-- A clinical feedback entry (`ClinicalFeedback` in `models/state.py`). -/
structure FeedbackEntry where
  id : String
  agent : String
  category : String
  feedback : String
  score : ℚ
  suggestions : List String
  iteration : Nat
  timestamp : String
deriving DecidableEq, Repr

/-- Empathy score record (`EmpathyScores` in `models/state.py`). -/
structure EmpathyScores where
  warmth : ℚ
  accessibility : ℚ
  safety_language : ℚ
  cultural_sensitivity : ℚ
  overall : ℚ
  readability_grade : Option String
  suggestions : List String
deriving DecidableEq, Repr

/-- The agent-notes map `agent_notes : dict[str, list]` from `models/state.py`,
modelled as an insertion-ordered association list, matching Python dict
iteration order. -/
abbrev AgentNotes := List (String × List Note)

/-- The blackboard `CerinaState` TypedDict of `models/state.py`, with every
declared field. -/
structure CerinaState where
  thread_id : String
  protocol_id : String
  user_intent : String
  additional_context : Option String
  current_draft : String
  draft_versions : List DraftVersion
  safety_flags : List SafetyFlag
  safety_score : ℚ
  clinical_feedback : List FeedbackEntry
  clinical_score : ℚ
  empathy_scores : EmpathyScores
  iteration_count : Nat
  max_iterations : Nat
  agent_notes : AgentNotes
  debate_history : List DebateEntry
  approval_status : String
  active_agent : String
  supervisor_decisions : List DecisionRecord
  human_feedback : Option String
  human_edits : Option String
  created_at : String
  updated_at : String
  messages : List Message
  errors : List String
deriving DecidableEq, Repr

/-- A state update dict (delta) as returned by a graph node.  A key absent
from the returned dict is an `Option` field holding `none` (for channels that
overwrite) or an empty list (for the channels annotated with `operator.add`
in `CerinaState`, where an absent key and an empty append coincide). -/
structure Delta where
  thread_id : Option String := none
  protocol_id : Option String := none
  user_intent : Option String := none
  additional_context : Option (Option String) := none
  current_draft : Option String := none
  draft_versions : List DraftVersion := []
  safety_flags : List SafetyFlag := []
  safety_score : Option ℚ := none
  clinical_feedback : List FeedbackEntry := []
  clinical_score : Option ℚ := none
  empathy_scores : Option EmpathyScores := none
  iteration_count : Option Nat := none
  max_iterations : Option Nat := none
  agent_notes : Option AgentNotes := none
  debate_history : List DebateEntry := []
  approval_status : Option String := none
  active_agent : Option String := none
  supervisor_decisions : List DecisionRecord := []
  human_feedback : Option (Option String) := none
  human_edits : Option (Option String) := none
  created_at : Option String := none
  updated_at : Option String := none
  messages : List Message := []
  errors : List String := []
deriving DecidableEq, Repr

/-- The delta of a node that wrote nothing. -/
def emptyDelta : Delta := {}

/-- Function `merge_lists` from `models/state.py`: the reducer used (as `operator.add`)
for every `Annotated[list, operator.add]` channel. -/
def merge_lists {α : Type} (left right : List α) : List α :=
  left ++ right

/-- Overwrite semantics of an un-annotated (LastValue) channel: the later
value, when present, replaces the earlier one. -/
def olast {α : Type} (a b : Option α) : Option α :=
  match b with
  | some v => some v
  | none => a

/-- Merging one node delta into the state: channels annotated with
`operator.add` in `CerinaState` concatenate, every other channel (including
the un-annotated `agent_notes` and `empathy_scores` dicts) is overwritten
when the delta carries the key and left unchanged otherwise. -/
def applyDelta (s : CerinaState) (d : Delta) : CerinaState where
  thread_id := d.thread_id.getD s.thread_id
  protocol_id := d.protocol_id.getD s.protocol_id
  user_intent := d.user_intent.getD s.user_intent
  additional_context := d.additional_context.getD s.additional_context
  current_draft := d.current_draft.getD s.current_draft
  draft_versions := merge_lists s.draft_versions d.draft_versions
  safety_flags := merge_lists s.safety_flags d.safety_flags
  safety_score := d.safety_score.getD s.safety_score
  clinical_feedback := merge_lists s.clinical_feedback d.clinical_feedback
  clinical_score := d.clinical_score.getD s.clinical_score
  empathy_scores := d.empathy_scores.getD s.empathy_scores
  iteration_count := d.iteration_count.getD s.iteration_count
  max_iterations := d.max_iterations.getD s.max_iterations
  agent_notes := d.agent_notes.getD s.agent_notes
  debate_history := merge_lists s.debate_history d.debate_history
  approval_status := d.approval_status.getD s.approval_status
  active_agent := d.active_agent.getD s.active_agent
  supervisor_decisions := merge_lists s.supervisor_decisions d.supervisor_decisions
  human_feedback := d.human_feedback.getD s.human_feedback
  human_edits := d.human_edits.getD s.human_edits
  created_at := d.created_at.getD s.created_at
  updated_at := d.updated_at.getD s.updated_at
  messages := merge_lists s.messages d.messages
  errors := merge_lists s.errors d.errors

/-- Field-wise concatenation of two deltas: append channels concatenate in
call order, overwrite channels keep the later value when present. -/
def concatDelta (d1 d2 : Delta) : Delta where
  thread_id := olast d1.thread_id d2.thread_id
  protocol_id := olast d1.protocol_id d2.protocol_id
  user_intent := olast d1.user_intent d2.user_intent
  additional_context := olast d1.additional_context d2.additional_context
  current_draft := olast d1.current_draft d2.current_draft
  draft_versions := merge_lists d1.draft_versions d2.draft_versions
  safety_flags := merge_lists d1.safety_flags d2.safety_flags
  safety_score := olast d1.safety_score d2.safety_score
  clinical_feedback := merge_lists d1.clinical_feedback d2.clinical_feedback
  clinical_score := olast d1.clinical_score d2.clinical_score
  empathy_scores := olast d1.empathy_scores d2.empathy_scores
  iteration_count := olast d1.iteration_count d2.iteration_count
  max_iterations := olast d1.max_iterations d2.max_iterations
  agent_notes := olast d1.agent_notes d2.agent_notes
  debate_history := merge_lists d1.debate_history d2.debate_history
  approval_status := olast d1.approval_status d2.approval_status
  active_agent := olast d1.active_agent d2.active_agent
  supervisor_decisions := merge_lists d1.supervisor_decisions d2.supervisor_decisions
  human_feedback := olast d1.human_feedback d2.human_feedback
  human_edits := olast d1.human_edits d2.human_edits
  created_at := olast d1.created_at d2.created_at
  updated_at := olast d1.updated_at d2.updated_at
  messages := merge_lists d1.messages d2.messages
  errors := merge_lists d1.errors d2.errors

/-- Method `BaseAgent.add_note` in `agents/base.py`: append the note to the calling
per-agent list in the notes map (creating the key at the end of the map when it
is missing) and return the whole updated map. -/
def addNote (notes : AgentNotes) (agent : String) (n : Note) : AgentNotes :=
  if notes.any (fun p => p.1 == agent) then
    notes.map (fun p => if p.1 == agent then (p.1, p.2 ++ [n]) else p)
  else
    notes ++ [(agent, [n])]

/-- Modelled from the spec: the keyed per-key append merge that section 4.1
of the specification attributes to the `agent_notes` channel ("keyed-log
fields are merged key-by-key with append semantics per key").
Defined only for comparison with the behaviour of `applyDelta`. -/
def specKeyedMerge (left right : AgentNotes) : AgentNotes :=
  right.foldl
    (fun acc kv =>
      if acc.any (fun p => p.1 == kv.1) then
        acc.map (fun p => if p.1 == kv.1 then (p.1, p.2 ++ kv.2) else p)
      else
        acc ++ [kv])
    left

/-- The configurable thresholds from `core/config.py` used by the supervisor
(`settings.min_safety_score`, `settings.min_clinical_score`,
`settings.min_empathy_score`). -/
structure Settings where
  min_safety_score : ℚ
  min_clinical_score : ℚ
  min_empathy_score : ℚ
deriving DecidableEq, Repr

/-- The default threshold values from `core/config.py`. -/
def defaultSettings : Settings :=
  { min_safety_score := 7, min_clinical_score := 6, min_empathy_score := 6 }

/-- The unresolved flags of severity `critical` filtered in Rule 2 of
`SupervisorAgent._apply_decision`. -/
def criticalFlags (s : CerinaState) : List SafetyFlag :=
  s.safety_flags.filter (fun f => !f.resolved && f.severity == Severity.critical)

/-- Method `SupervisorAgent._check_ready_for_review`. -/
def checkReadyForReview (st : Settings) (s : CerinaState) : Bool :=
  if s.safety_score < st.min_safety_score then false
  else if !(s.safety_flags.filter (fun f =>
      !f.resolved && (f.severity == Severity.critical || f.severity == Severity.high))).isEmpty
    then false
  else if s.clinical_score < st.min_clinical_score then false
  else if s.empathy_scores.overall < st.min_empathy_score then false
  else true

/-- Method `SupervisorAgent._determine_needed_review`: the most urgent unmet
dimension in priority Safety, Clinical, Empathy, defaulting to drafting. -/
def determineNeededReview (st : Settings) (s : CerinaState) : String :=
  if s.safety_score < st.min_safety_score then "safety_guardian"
  else if s.clinical_score < st.min_clinical_score then "clinical_critic"
  else if s.empathy_scores.overall < st.min_empathy_score then "empathy"
  else "drafting"

/-- The `valid_agents` list of Rule 4 in `SupervisorAgent._apply_decision`. -/
def validAgents : List String :=
  ["drafting", "clinical_critic", "safety_guardian",
   "empathy", "human_review", "complete", "terminate"]

/-- Rule 4 of `SupervisorAgent._apply_decision`: replace a suggestion outside
the valid agent set by `drafting`. -/
def normalizeSuggestion (sug : String) : String :=
  if sug ∈ validAgents then sug else "drafting"

/-- Method `SupervisorAgent._apply_decision`: the deterministic override of the
advisory suggestion.  `sug` is the `next_agent` string taken from the parsed
LLM decision (the parser supplies `drafting` when the key is missing). -/
def applyDecision (st : Settings) (sug : String) (s : CerinaState) : String × Bool :=
  if s.current_draft = "" then ("drafting", true)
  else if !(criticalFlags s).isEmpty ∧ sug ≠ "drafting" then ("drafting", true)
  else if s.max_iterations ≤ s.iteration_count then ("human_review", false)
  else if normalizeSuggestion sug = "human_review" ∧ checkReadyForReview st s = false then
    (determineNeededReview st s, true)
  else
    (normalizeSuggestion sug,
     !(["human_review", "complete", "terminate"].contains (normalizeSuggestion sug)))

/-- Method `SupervisorAgent._determine_status`. -/
def determineStatus (next_agent : String) (s : CerinaState) : String :=
  if next_agent = "human_review" then "pending_human_review"
  else if next_agent = "complete" then "approved"
  else if next_agent = "terminate" then "rejected"
  else if s.current_draft = "" then "drafting"
  else "in_review"

/-- The new iteration count computed in `SupervisorAgent.process`: increment
only when routing to drafting while a draft already exists. -/
def supervisorNextIter (st : Settings) (sug : String) (s : CerinaState) : Nat :=
  if (applyDecision st sug s).1 = "drafting" ∧ s.current_draft ≠ "" then
    s.iteration_count + 1
  else
    s.iteration_count

/-- The decision record appended by `SupervisorAgent.process`. -/
def supervisorRecord (st : Settings) (s : CerinaState) (sug reasoning ts : String) :
    DecisionRecord :=
  { id := "decision_" ++ toString s.iteration_count ++ "_" ++ ts,
    decision := (applyDecision st sug s).1,
    reasoning := reasoning,
    next_agent := (applyDecision st sug s).1,
    should_continue := (applyDecision st sug s).2,
    iteration := s.iteration_count,
    timestamp := ts }

/-- The state-update dict returned by `SupervisorAgent.process`.  `sug` and
`reasoning` stand for the parsed advisory decision, `ts` for the wall-clock
timestamp strings taken in the body. -/
def supervisorProcess (st : Settings) (s : CerinaState) (sug reasoning ts : String) : Delta :=
  let next_agent := (applyDecision st sug s).1
  let new_iteration := supervisorNextIter st sug s
  { active_agent :=
      some (if next_agent ∈ ["human_review", "complete", "terminate"]
            then "supervisor" else next_agent),
    supervisor_decisions := [supervisorRecord st s sug reasoning ts],
    debate_history :=
      [{ from_agent := "supervisor",
         to_agent := none,
         message := "Routing to " ++ next_agent ++ ". " ++ reasoning,
         message_type := "suggestion",
         iteration := s.iteration_count,
         timestamp := ts }],
    approval_status := some (determineStatus next_agent s),
    iteration_count := some new_iteration,
    agent_notes :=
      some (addNote s.agent_notes "supervisor"
        { note := "Routing decision: " ++ next_agent ++ ". Iteration: "
            ++ toString new_iteration ++ ". Ready for human review: "
            ++ (if next_agent = "human_review" then "True" else "False"),
          timestamp := ts,
          iteration := s.iteration_count }),
    messages :=
      [{ role := "ai",
         agent := "supervisor",
         content := "Supervisor decision: Route to " ++ next_agent ++ ". " ++ reasoning,
         timestamp := ts }] }

/-- The successful branch of `BaseAgent.invoke`: the base dict stamps the
agent and the update time, then the keys of `process` override it. -/
def invokeOk (name ts : String) (d : Delta) : Delta :=
  { d with
    active_agent := olast (some name) d.active_agent,
    updated_at := olast (some ts) d.updated_at }

/-- Method `BaseAgent.invoke`: wraps `process` with error recovery.  A raised
exception (`Except.error`) is converted into a delta holding only the
appended `errors` entry and the `active_agent` stamp. -/
def agentInvoke (name ts : String) (res : Except String Delta) : Delta :=
  match res with
  | Except.ok d => invokeOk name ts d
  | Except.error e =>
      { errors := ["Agent " ++ name ++ " error: " ++ e],
        active_agent := some name }

/-- The nodes of the workflow graph built in `core/graph.py`
(`done` stands for the LangGraph END). -/
inductive WNode
  | supervisor
  | drafting
  | clinicalCritic
  | safetyGuardian
  | empathy
  | humanReview
  | finalize
  | done
deriving DecidableEq, Repr

/-- The `route_map` dict of `route_from_supervisor` in `core/graph.py`,
with the `.get(next_agent, "drafting")` default. -/
def routeMapNode (x : String) : WNode :=
  if x = "drafting" then WNode.drafting
  else if x = "clinical_critic" then WNode.clinicalCritic
  else if x = "safety_guardian" then WNode.safetyGuardian
  else if x = "empathy" then WNode.empathy
  else if x = "human_review" then WNode.humanReview
  else if x = "complete" then WNode.finalize
  else if x = "terminate" then WNode.done
  else WNode.drafting

/-- Function `route_from_supervisor` in `core/graph.py`: follow the latest supervisor
decision, with a drafting/clinical default when none exists yet. -/
def routeFromSupervisor (s : CerinaState) : WNode :=
  match s.supervisor_decisions.getLast? with
  | none => if s.current_draft = "" then WNode.drafting else WNode.clinicalCritic
  | some d => routeMapNode d.next_agent

/-- Function `route_after_human_review` in `core/graph.py`. -/
def routeAfterHumanReview (s : CerinaState) : WNode :=
  if s.approval_status = "approved" then WNode.finalize
  else if s.approval_status = "rejected" then WNode.done
  else WNode.supervisor

/-- Function `should_continue_to_supervisor` in `core/graph.py`: `true` routes back to
the supervisor, `false` is the `__end__` safety valve. -/
def shouldContinueToSupervisor (s : CerinaState) : Bool :=
  if s.approval_status = "approved" then false
  else if s.approval_status = "rejected" then false
  else if s.max_iterations + 2 < s.iteration_count then false
  else true

/-- The delta of `human_review_node` in `core/graph.py`. -/
def humanReviewNodeDelta (ts : String) : Delta :=
  { approval_status := some "pending_human_review",
    active_agent := some "human_review",
    messages :=
      [{ role := "system", agent := "system",
         content := "Protocol ready for human review. Execution paused.",
         timestamp := ts }] }

/-- The delta of `finalize_node` in `core/graph.py`. -/
def finalizeDelta (ts : String) : Delta :=
  { approval_status := some "approved",
    active_agent := some "complete",
    messages :=
      [{ role := "system", agent := "system",
         content := "Protocol approved and finalized.",
         timestamp := ts }] }

/-- Python truthiness of an optional string: present and non-empty. -/
def pyTruthy (o : Option String) : Bool :=
  match o with
  | some e => e != ""
  | none => false

/-- The update dict built by `CerinaWorkflow.resume_after_approval` in
`core/graph.py` from the human decision, before resuming the graph.
Python truthiness of `human_edits` is: present and non-empty. -/
def resumeUpdates (approved : Bool) (human_feedback human_edits : Option String)
    (ts : String) (cur : CerinaState) : Delta :=
  if approved then
    if pyTruthy human_edits then
      { approval_status := some "approved",
        human_feedback := some human_feedback,
        current_draft := some (human_edits.getD ""),
        draft_versions :=
          [{ version := cur.draft_versions.length + 1,
             content := human_edits.getD "",
             agent := "human",
             timestamp := ts,
             changes_summary := some "Human edits applied during approval" }] }
    else
      { approval_status := some "approved",
        human_feedback := some human_feedback }
  else
    if pyTruthy human_edits then
      { approval_status := some "human_editing",
        human_feedback := some human_feedback,
        current_draft := some (human_edits.getD ""),
        draft_versions :=
          [{ version := cur.draft_versions.length + 1,
             content := human_edits.getD "",
             agent := "human",
             timestamp := ts,
             changes_summary := some "Human revision - sent back for review" }] }
    else
      { approval_status := some "in_review",
        human_feedback := some human_feedback }

/-- The state-update dict of one of the four worker agents (drafting,
clinical critic, safety guardian, empathy).  The fields are exactly the union
of the keys the `process` methods of those agents ever return; none of them returns
`iteration_count`, `max_iterations` or `approval_status`. -/
structure AgentOutput where
  current_draft : Option String := none
  draft_versions : List DraftVersion := []
  safety_flags : List SafetyFlag := []
  safety_score : Option ℚ := none
  clinical_feedback : List FeedbackEntry := []
  empathy_scores : Option EmpathyScores := none
  debate_history : List DebateEntry := []
  agent_notes : Option AgentNotes := none
  messages : List Message := []
  errors : List String := []
deriving DecidableEq, Repr

/-- Embed a worker-agent output into a full state delta. -/
def AgentOutput.toDelta (o : AgentOutput) : Delta :=
  { current_draft := o.current_draft,
    draft_versions := o.draft_versions,
    safety_flags := o.safety_flags,
    safety_score := o.safety_score,
    clinical_feedback := o.clinical_feedback,
    empathy_scores := o.empathy_scores,
    debate_history := o.debate_history,
    agent_notes := o.agent_notes,
    messages := o.messages,
    errors := o.errors }

/-- One nondeterministic input consumed by a workflow step: the parsed
advisory decision for the supervisor, the LLM-derived output (or a raised
exception) for a worker agent, the external approval decision at the
human-review interrupt, and the clock tick for finalize. -/
inductive WEvent
  | supervisorTurn (sug reasoning ts : String)
  | agentTurn (ts : String) (res : Except String AgentOutput)
  | humanDecision (approved : Bool) (feedback edits : Option String) (ts : String)
  | tick (ts : String)

/-- The state after the supervisor node executes (invoke wrapping `process`,
merged into the state). -/
def supervisorStepState (st : Settings) (s : CerinaState) (sug reasoning ts : String) :
    CerinaState :=
  applyDelta s (agentInvoke "supervisor" ts
    (Except.ok (supervisorProcess st s sug reasoning ts)))

/-- One step of a worker-agent node: invoke the agent (with error recovery),
merge its delta, then take the `should_continue_to_supervisor` edge. -/
def agentNodeStep (name : String) (s : CerinaState) (ts : String)
    (res : Except String AgentOutput) : WNode × CerinaState :=
  let s' := applyDelta s (agentInvoke name ts (res.map AgentOutput.toDelta))
  (if shouldContinueToSupervisor s' then WNode.supervisor else WNode.done, s')

/-- One step of the workflow state machine of `core/graph.py`: run the node
the control sits at (consuming its nondeterministic input), merge the
returned delta, and follow the conditional edge of the graph.  The human-review
step models `resume_after_approval`: the interrupt fires before the
`human_review` node, the external decision is merged via `update_state`, the
node then runs and `route_after_human_review` picks the successor.  `none`
means the event does not match the node (no such transition). -/
def step (st : Settings) : WNode × CerinaState → WEvent → Option (WNode × CerinaState)
  | (WNode.supervisor, s), WEvent.supervisorTurn sug reasoning ts =>
      some (routeFromSupervisor (supervisorStepState st s sug reasoning ts),
        supervisorStepState st s sug reasoning ts)
  | (WNode.drafting, s), WEvent.agentTurn ts res =>
      some (agentNodeStep "drafting" s ts res)
  | (WNode.clinicalCritic, s), WEvent.agentTurn ts res =>
      some (agentNodeStep "clinical_critic" s ts res)
  | (WNode.safetyGuardian, s), WEvent.agentTurn ts res =>
      some (agentNodeStep "safety_guardian" s ts res)
  | (WNode.empathy, s), WEvent.agentTurn ts res =>
      some (agentNodeStep "empathy" s ts res)
  | (WNode.humanReview, s), WEvent.humanDecision approved feedback edits ts =>
      let s1 := applyDelta s (resumeUpdates approved feedback edits ts s)
      let s2 := applyDelta s1 (humanReviewNodeDelta ts)
      some (routeAfterHumanReview s2, s2)
  | (WNode.finalize, s), WEvent.tick ts =>
      some (WNode.done, applyDelta s (finalizeDelta ts))
  | _, _ => none

/-- Function `create_initial_state` in `models/state.py`. -/
def initialState (user_intent thread_id protocol_id : String)
    (additional_context : Option String) (now : String) : CerinaState where
  thread_id := thread_id
  protocol_id := protocol_id
  user_intent := user_intent
  additional_context := additional_context
  current_draft := ""
  draft_versions := []
  safety_flags := []
  safety_score := 10
  clinical_feedback := []
  clinical_score := 0
  empathy_scores :=
    { warmth := 0, accessibility := 0, safety_language := 0,
      cultural_sensitivity := 0, overall := 0,
      readability_grade := none, suggestions := [] }
  iteration_count := 0
  max_iterations := 5
  agent_notes :=
    [("drafting", []), ("clinical_critic", []), ("safety_guardian", []),
     ("empathy", []), ("supervisor", [])]
  debate_history := []
  approval_status := "drafting"
  active_agent := "supervisor"
  supervisor_decisions := []
  human_feedback := none
  human_edits := none
  created_at := now
  updated_at := now
  messages := []
  errors := []

/-- Configurations of the workflow reachable from a fresh session: the graph
entry point is the supervisor node on the initial state. -/
inductive Reach (st : Settings) : WNode × CerinaState → Prop
  | init (user_intent thread_id protocol_id : String)
      (additional_context : Option String) (now : String) :
      Reach st (WNode.supervisor,
        initialState user_intent thread_id protocol_id additional_context now)
  | next {c c' : WNode × CerinaState} {e : WEvent} :
      Reach st c → step st c e = some c' → Reach st c'

/-- Iterate `step` over a list of events (a concrete workflow run). -/
def runSteps (st : Settings) (c : WNode × CerinaState) : List WEvent → Option (WNode × CerinaState)
  | [] => some c
  | e :: es =>
      match step st c e with
      | none => none
      | some c' => runSteps st c' es

/-- A persisted checkpoint row (`Checkpoint` in `models/database.py`, as
written by `CerinaCheckpointer.put` in `core/checkpointer.py`). -/
structure CheckpointRecord where
  thread_id : String
  checkpoint_id : String
  parent_checkpoint_id : Option String
  checkpoint_data : String
  checkpoint_metadata : String
deriving DecidableEq, Repr

/-- The checkpoint table, in insertion (creation-time) order. -/
abbrev CheckpointStore := List CheckpointRecord

/-- Method `CerinaCheckpointer.put`: insert one fresh row whose parent is the
`checkpoint_id` carried in the supplied config (the current head of the session,
absent for the first checkpoint), and hand back the updated config.  `newId`
stands for the generated `uuid4`. -/
def putCheckpoint (store : CheckpointStore) (thread_id : String)
    (configCheckpointId : Option String) (newId data meta : String) :
    CheckpointStore × (String × String) :=
  (store ++
    [{ thread_id := thread_id,
       checkpoint_id := newId,
       parent_checkpoint_id := configCheckpointId,
       checkpoint_data := data,
       checkpoint_metadata := meta }],
   (thread_id, newId))

/-- The checkpoint ids already present for a thread. -/
def checkpointIds (store : CheckpointStore) (tid : String) : List String :=
  (store.filter (fun r => r.thread_id == tid)).map (fun r => r.checkpoint_id)

/-- Look a checkpoint up by id for a thread (`CerinaCheckpointer.get_tuple`
with an explicit `checkpoint_id`). -/
def findCheckpoint (store : CheckpointStore) (tid id : String) : Option CheckpointRecord :=
  store.find? (fun r => r.thread_id == tid && r.checkpoint_id == id)

/-- Walk the `parent_checkpoint_id` pointers from the given id until a row
with a null parent is found; the fuel bounds the walk by the store size. -/
def walkToRoot (store : CheckpointStore) (tid : String) : Nat → String → Option CheckpointRecord
  | 0, _ => none
  | fuel + 1, id =>
      match findCheckpoint store tid id with
      | none => none
      | some r =>
          match r.parent_checkpoint_id with
          | none => some r
          | some p => walkToRoot store tid fuel p

/-- The stores the checkpoints of a single session can form: each `put` carries
the current head of the thread in its config (null first), and the generated
`uuid4` is fresh.  `head` is the config checkpoint id after the last put. -/
inductive HeadChain (tid : String) : CheckpointStore → Option String → Prop
  | nil : HeadChain tid [] none
  | put {recs : CheckpointStore} {head : Option String} (r : CheckpointRecord) :
      HeadChain tid recs head →
      r.thread_id = tid →
      r.parent_checkpoint_id = head →
      r.checkpoint_id ∉ checkpointIds recs tid →
      HeadChain tid (recs ++ [r]) (some r.checkpoint_id)

/-- The per-dimension scores found in the parsed clinical evaluation dict
(`ClinicalCriticAgent._parse_evaluation`); `none` models a dimension whose
entry is missing or carries no `score` key. -/
structure ClinicalEval where
  therapeutic_validity : Option ℚ
  structural_completeness : Option ℚ
  clinical_tone : Option ℚ
  practical_utility : Option ℚ
deriving DecidableEq, Repr

/-- One loop iteration of `_calculate_clinical_score`: the contribution of a
dimension to `(total_score, total_weight)`. -/
def dimContribution (weight : ℚ) (score : Option ℚ) : ℚ × ℚ :=
  match score with
  | some v => (v * weight, weight)
  | none => (0, 0)

/-- The `weights` dict of `_calculate_clinical_score`. -/
def clinicalWeightTV : ℚ := 35 / 100
def clinicalWeightSC : ℚ := 25 / 100
def clinicalWeightCT : ℚ := 20 / 100
def clinicalWeightPU : ℚ := 20 / 100

/-- The value `sum(weights.values())`. -/
def clinicalWeightsSum : ℚ :=
  clinicalWeightTV + clinicalWeightSC + clinicalWeightCT + clinicalWeightPU

/-- The accumulated `(total_score, total_weight)` of
`_calculate_clinical_score`. -/
def clinicalTotals (ev : ClinicalEval) : ℚ × ℚ :=
  let a := dimContribution clinicalWeightTV ev.therapeutic_validity
  let b := dimContribution clinicalWeightSC ev.structural_completeness
  let c := dimContribution clinicalWeightCT ev.clinical_tone
  let d := dimContribution clinicalWeightPU ev.practical_utility
  (a.1 + b.1 + c.1 + d.1, a.2 + b.2 + c.2 + d.2)

/-- The Python `round` (half to even) on an exact rational. -/
def pythonRoundInt (q : ℚ) : ℤ :=
  let n := ⌊q⌋
  let r := q - n
  if r < 1 / 2 then n
  else if 1 / 2 < r then n + 1
  else if n % 2 = 0 then n else n + 1

/-- The Python `round(x, 1)`. -/
def round1 (q : ℚ) : ℚ :=
  (pythonRoundInt (10 * q) : ℚ) / 10

/-- The Python binary `max` on rationals (the first argument on ties). -/
def pyMaxQ (a b : ℚ) : ℚ :=
  if a < b then b else a

/-- Method `ClinicalCriticAgent._calculate_clinical_score`: the weighted score,
re-divided by `max(sum(weights.values()), 1)`, scaled to a 0-100 range and
rounded to one decimal; `5.0` when no dimension carried a score. -/
def calculateClinicalScore (ev : ClinicalEval) : ℚ :=
  let t := clinicalTotals ev
  if 0 < t.2 then
    round1 (t.1 / t.2 * (1 / pyMaxQ clinicalWeightsSum 1) * 10)
  else
    5

/-- A fresh session state used for concrete instances below. -/
def baseState : CerinaState :=
  initialState "Create a CBT protocol" "thread-1" "proto-1" none "2024-01-01T00:00:00"

/-- A concrete unresolved critical safety flag. -/
def critFlag : SafetyFlag :=
  { id := "flag-1", flag_type := "self_harm_risk", severity := Severity.critical,
    details := "hazardous content", location := none, resolved := false,
    resolution_notes := none, flagged_at := "2024-01-01T00:01:00" }

/-- A state with a draft, one unresolved critical flag, and the iteration
budget exhausted. -/
def c1State : CerinaState :=
  { baseState with
    current_draft := "draft text",
    safety_flags := [critFlag],
    iteration_count := 5,
    max_iterations := 5 }

/-- Concrete notes for the agent-notes merge instances. -/
def noteOne : Note := { note := "note one", timestamp := "t1", iteration := 0 }
def noteTwo : Note := { note := "note two", timestamp := "t2", iteration := 0 }

/-- A state whose notes map holds only a supervisor entry. -/
def c4State : CerinaState :=
  { baseState with agent_notes := [("supervisor", [noteOne])] }

/-- A delta carrying a notes map that mentions only the drafting key. -/
def c4Delta : Delta :=
  { emptyDelta with agent_notes := some [("drafting", [noteTwo])] }

/-- A concrete state at the iteration cap without blocking flags, reaching
human review through Rule 3. -/
def c2WitnessState : CerinaState :=
  { baseState with
    current_draft := "draft text",
    iteration_count := 5,
    max_iterations := 5 }

/-- A state with a draft, an unresolved critical flag and iteration budget
remaining. -/
def c1WitnessState : CerinaState :=
  { baseState with
    current_draft := "draft text",
    safety_flags := [critFlag] }

/-- A concrete two-checkpoint chain for thread `t`. -/
def ckpt1 : CheckpointRecord :=
  { thread_id := "t", checkpoint_id := "c1", parent_checkpoint_id := none,
    checkpoint_data := "snap1", checkpoint_metadata := "m1" }

def ckpt2 : CheckpointRecord :=
  { thread_id := "t", checkpoint_id := "c2", parent_checkpoint_id := some "c1",
    checkpoint_data := "snap2", checkpoint_metadata := "m2" }

/-- The configuration reached by one supervisor step from a fresh session. -/
def c6WitC : WNode × CerinaState :=
  (step defaultSettings (WNode.supervisor, baseState)
    (WEvent.supervisorTurn "clinical_critic" "r" "t")).getD (WNode.done, baseState)

/-- The inductive invariant behind the iteration bound: the count never
exceeds `max_iterations + 3`, and whenever control sits at the supervisor or
the human-review interrupt it is still within `max_iterations + 2` (the
guard threshold). -/
def IterInv (c : WNode × CerinaState) : Prop :=
  c.2.iteration_count ≤ c.2.max_iterations + 3 ∧
  ((c.1 = WNode.supervisor ∨ c.1 = WNode.humanReview) →
    c.2.iteration_count ≤ c.2.max_iterations + 2)

/-- Drafting output used by the counterexample run: writes a draft. -/
def cexDraftOut : AgentOutput :=
  { current_draft := some "d" }

/-- Safety-guardian output used by the counterexample run: raises one
unresolved critical flag. -/
def cexFlagOut : AgentOutput :=
  { safety_flags := [critFlag], safety_score := some 2 }

/-- A run in which the advisory keeps suggesting `empathy` while an
unresolved critical flag forces redrafting: supervisor Rule 2 keeps
routing to drafting (incrementing the count) past the iteration cap, until
the count reaches `max_iterations + 3`. -/
def cexEvents : List WEvent :=
  [WEvent.supervisorTurn "drafting" "r" "t",
   WEvent.agentTurn "t" (Except.ok cexDraftOut),
   WEvent.supervisorTurn "safety_guardian" "r" "t",
   WEvent.agentTurn "t" (Except.ok cexFlagOut),
   WEvent.supervisorTurn "empathy" "r" "t",
   WEvent.agentTurn "t" (Except.ok cexDraftOut),
   WEvent.supervisorTurn "empathy" "r" "t",
   WEvent.agentTurn "t" (Except.ok cexDraftOut),
   WEvent.supervisorTurn "empathy" "r" "t",
   WEvent.agentTurn "t" (Except.ok cexDraftOut),
   WEvent.supervisorTurn "empathy" "r" "t",
   WEvent.agentTurn "t" (Except.ok cexDraftOut),
   WEvent.supervisorTurn "empathy" "r" "t",
   WEvent.agentTurn "t" (Except.ok cexDraftOut),
   WEvent.supervisorTurn "empathy" "r" "t",
   WEvent.agentTurn "t" (Except.ok cexDraftOut),
   WEvent.supervisorTurn "empathy" "r" "t",
   WEvent.agentTurn "t" (Except.ok cexDraftOut),
   WEvent.supervisorTurn "empathy" "r" "t"]

theorem olast_getD {α : Type} (x : α) (a b : Option α) :
    (olast a b).getD x = b.getD (a.getD x) := by
  cases b <;> rfl

/-- C5: applying two deltas in sequence coincides with applying their
field-wise concatenation, and applying the empty delta is the identity:
the merge contract of `CerinaState` is associative and no-op-idempotent. -/
theorem applyDelta_assoc_and_noop (s : CerinaState) (d1 d2 : Delta) :
    applyDelta (applyDelta s d1) d2 = applyDelta s (concatDelta d1 d2) ∧
    applyDelta s emptyDelta = s := by
  constructor
  · simp [applyDelta, concatDelta, merge_lists, olast_getD, List.append_assoc]
  · simp [applyDelta, emptyDelta, merge_lists]

theorem addNote_eq_specKeyedMerge (notes : AgentNotes) (a : String) (n : Note) :
    addNote notes a n = specKeyedMerge notes [(a, [n])] := rfl

/-- C4 (amended): applying a delta overwrites the scalar channels, appends
the `operator.add` channels in call order, and leaves absent fields
unchanged; the `agent_notes` map, however, is itself an overwrite channel
(it carries no reducer annotation) — per-key append is observed only because
`add_note` copies the whole updated map into the delta, which makes the
applied result equal the keyed per-key append of the single new note. -/
theorem applyDelta_field_rules (s : CerinaState) (d : Delta) :
    (applyDelta s d).current_draft = d.current_draft.getD s.current_draft ∧
    (applyDelta s d).safety_score = d.safety_score.getD s.safety_score ∧
    (applyDelta s d).clinical_score = d.clinical_score.getD s.clinical_score ∧
    (applyDelta s d).empathy_scores = d.empathy_scores.getD s.empathy_scores ∧
    (applyDelta s d).iteration_count = d.iteration_count.getD s.iteration_count ∧
    (applyDelta s d).approval_status = d.approval_status.getD s.approval_status ∧
    (applyDelta s d).active_agent = d.active_agent.getD s.active_agent ∧
    (applyDelta s d).draft_versions = merge_lists s.draft_versions d.draft_versions ∧
    (applyDelta s d).safety_flags = merge_lists s.safety_flags d.safety_flags ∧
    (applyDelta s d).clinical_feedback = merge_lists s.clinical_feedback d.clinical_feedback ∧
    (applyDelta s d).debate_history = merge_lists s.debate_history d.debate_history ∧
    (applyDelta s d).supervisor_decisions
      = merge_lists s.supervisor_decisions d.supervisor_decisions ∧
    (applyDelta s d).messages = merge_lists s.messages d.messages ∧
    (applyDelta s d).errors = merge_lists s.errors d.errors ∧
    (applyDelta s d).agent_notes = d.agent_notes.getD s.agent_notes ∧
    applyDelta s emptyDelta = s ∧
    (∀ (a : String) (n : Note),
      (applyDelta s { emptyDelta with
          agent_notes := some (addNote s.agent_notes a n) }).agent_notes
        = specKeyedMerge s.agent_notes [(a, [n])]) := by
  refine ⟨rfl, rfl, rfl, rfl, rfl, rfl, rfl, rfl, rfl, rfl, rfl, rfl, rfl, rfl, rfl, ?_, ?_⟩
  · simp [applyDelta, emptyDelta, merge_lists]
  · intro a n
    exact addNote_eq_specKeyedMerge s.agent_notes a n

/-- C4 counterexample: the `agent_notes` channel is overwritten, not merged
key-by-key — a delta mentioning only the drafting key erases the
notes of the supervisor, unlike the keyed append the claim states. -/
theorem applyDelta_agent_notes_not_keyed :
    (applyDelta c4State c4Delta).agent_notes = [("drafting", [noteTwo])] ∧
    specKeyedMerge c4State.agent_notes [("drafting", [noteTwo])]
      = [("supervisor", [noteOne]), ("drafting", [noteTwo])] ∧
    (applyDelta c4State c4Delta).agent_notes
      ≠ specKeyedMerge c4State.agent_notes [("drafting", [noteTwo])] := by
  refine ⟨rfl, rfl, ?_⟩
  decide

theorem determineNeededReview_ne_hr (st : Settings) (s : CerinaState) :
    determineNeededReview st s ≠ "human_review" := by
  unfold determineNeededReview
  split
  · decide
  · split
    · decide
    · split
      · decide
      · decide

theorem checkReady_spec (st : Settings) (s : CerinaState)
    (h : checkReadyForReview st s = true) :
    st.min_safety_score ≤ s.safety_score ∧
    (∀ f ∈ s.safety_flags, f.resolved = false →
      f.severity ≠ Severity.critical ∧ f.severity ≠ Severity.high) ∧
    st.min_clinical_score ≤ s.clinical_score ∧
    st.min_empathy_score ≤ s.empathy_scores.overall := by
  unfold checkReadyForReview at h
  split at h
  · simp at h
  · split at h
    · simp at h
    · split at h
      · simp at h
      · split at h
        · simp at h
        · rename_i h1 h2 h3 h4
          have hnil : s.safety_flags.filter (fun f =>
              !f.resolved && (f.severity == Severity.critical
                || f.severity == Severity.high)) = [] := by
            have hb : (s.safety_flags.filter (fun f =>
                !f.resolved && (f.severity == Severity.critical
                  || f.severity == Severity.high))).isEmpty = true := by
              revert h2
              cases (s.safety_flags.filter (fun f =>
                !f.resolved && (f.severity == Severity.critical
                  || f.severity == Severity.high))).isEmpty <;> simp
            exact List.isEmpty_iff.mp hb
          refine ⟨le_of_not_lt h1, ?_, le_of_not_lt h3, le_of_not_lt h4⟩
          intro f hf hres
          constructor
          · intro hcrit
            have hm : f ∈ s.safety_flags.filter (fun f =>
                !f.resolved && (f.severity == Severity.critical
                  || f.severity == Severity.high)) :=
              List.mem_filter.mpr ⟨hf, by simp [hres, hcrit]⟩
            rw [hnil] at hm
            exact List.not_mem_nil f hm
          · intro hhigh
            have hm : f ∈ s.safety_flags.filter (fun f =>
                !f.resolved && (f.severity == Severity.critical
                  || f.severity == Severity.high)) :=
              List.mem_filter.mpr ⟨hf, by simp [hres, hhigh]⟩
            rw [hnil] at hm
            exact List.not_mem_nil f hm

/-- C2: the routing policy returns `human_review` only when the iteration
budget is exhausted or every readiness condition holds (safety score at
threshold, no unresolved critical/high flag, clinical and empathy scores at
threshold). -/
theorem applyDecision_human_review_gating (st : Settings) (sug : String)
    (s : CerinaState) (h : (applyDecision st sug s).1 = "human_review") :
    s.max_iterations ≤ s.iteration_count ∨
    (st.min_safety_score ≤ s.safety_score ∧
     (∀ f ∈ s.safety_flags, f.resolved = false →
        f.severity ≠ Severity.critical ∧ f.severity ≠ Severity.high) ∧
     st.min_clinical_score ≤ s.clinical_score ∧
     st.min_empathy_score ≤ s.empathy_scores.overall) := by
  unfold applyDecision at h
  split at h
  · exact absurd h (by decide)
  · split at h
    · exact absurd h (by decide)
    · split at h
      · rename_i hiter
        exact Or.inl hiter
      · split at h
        · exact absurd h (determineNeededReview_ne_hr st s)
        · rename_i hcond
          right
          have hs : normalizeSuggestion sug = "human_review" := h
          have hready : checkReadyForReview st s = true := by
            cases hb : checkReadyForReview st s with
            | false => exact absurd (And.intro hs hb) hcond
            | true => rfl
          exact checkReady_spec st s hready

theorem applyDecision_human_review_gating_witness :
    (applyDecision defaultSettings "empathy" c2WitnessState).1 = "human_review" ∧
    (c2WitnessState.max_iterations ≤ c2WitnessState.iteration_count ∨
     (defaultSettings.min_safety_score ≤ c2WitnessState.safety_score ∧
      (∀ f ∈ c2WitnessState.safety_flags, f.resolved = false →
         f.severity ≠ Severity.critical ∧ f.severity ≠ Severity.high) ∧
      defaultSettings.min_clinical_score ≤ c2WitnessState.clinical_score ∧
      defaultSettings.min_empathy_score ≤ c2WitnessState.empathy_scores.overall)) :=
  ⟨by decide,
   applyDecision_human_review_gating defaultSettings "empathy" c2WitnessState (by decide)⟩

/-- C1 (amended): with a non-empty draft and an unresolved critical flag the
routing policy forces `Drafting` for every advisory suggestion, provided the
iteration budget is not yet exhausted or the suggestion differs from
`drafting`; when the advisory itself suggests `drafting` and
`iteration_count` has reached `max_iterations`, Rule 3 yields `human_review`
instead (Rule 2 tests `suggested_agent != "drafting"` before Rule 3 runs). -/
theorem applyDecision_critical_override (st : Settings) (sug : String)
    (s : CerinaState)
    (hdraft : s.current_draft ≠ "")
    (hflag : ∃ f ∈ s.safety_flags, f.resolved = false ∧ f.severity = Severity.critical)
    (hside : s.iteration_count < s.max_iterations ∨ sug ≠ "drafting") :
    (applyDecision st sug s).1 = "drafting" := by
  obtain ⟨f, hf, hres, hsev⟩ := hflag
  have hmem : f ∈ criticalFlags s :=
    List.mem_filter.mpr ⟨hf, by simp [hres, hsev]⟩
  have hne : (criticalFlags s).isEmpty = false := by
    cases hcf : criticalFlags s with
    | nil =>
        rw [hcf] at hmem
        exact absurd hmem (List.not_mem_nil f)
    | cons a l => rfl
  by_cases hsug : sug = "drafting"
  · have hlt : s.iteration_count < s.max_iterations := by
      rcases hside with hlt | hns
      · exact hlt
      · exact absurd hsug hns
    unfold applyDecision
    rw [if_neg hdraft]
    rw [if_neg (by simp [hsug])]
    rw [if_neg (Nat.not_le.mpr hlt)]
    rw [if_neg (by simp [hsug, normalizeSuggestion, validAgents])]
    simp [hsug, normalizeSuggestion, validAgents]
  · unfold applyDecision
    rw [if_neg hdraft]
    rw [if_pos ⟨by simp [hne], hsug⟩]

theorem applyDecision_critical_override_witness :
    (c1WitnessState.current_draft ≠ "" ∧
     (∃ f ∈ c1WitnessState.safety_flags,
        f.resolved = false ∧ f.severity = Severity.critical) ∧
     (c1WitnessState.iteration_count < c1WitnessState.max_iterations ∨
        "empathy" ≠ "drafting")) ∧
    (applyDecision defaultSettings "empathy" c1WitnessState).1 = "drafting" :=
  ⟨⟨by decide, by decide, by decide⟩,
   applyDecision_critical_override defaultSettings "empathy" c1WitnessState
     (by decide) (by decide) (by decide)⟩

/-- C1 counterexample: at `c1State` (non-empty draft, one unresolved critical
flag, `iteration_count = max_iterations = 5`) the advisory suggestion
`drafting` slips past Rule 2 and Rule 3 forces `human_review`, so the
override does not fire for every suggestion. -/
theorem applyDecision_critical_override_cex :
    c1State.current_draft ≠ "" ∧
    (∃ f ∈ c1State.safety_flags, f.resolved = false ∧ f.severity = Severity.critical) ∧
    (applyDecision defaultSettings "drafting" c1State).1 = "human_review" ∧
    (applyDecision defaultSettings "drafting" c1State).1 ≠ "drafting" := by
  refine ⟨by decide, by decide, ?_, ?_⟩ <;> decide

/-- C10: with all four dimensions scored, the clinical score is ten times the
weighted average rounded to one decimal — so 0-10 dimension scores (all 8)
produce 80.0, exceeding the documented 0-10 scale — and the 5.0 default is taken
exactly when no dimension carries a score. -/
theorem calculateClinicalScore_spec :
    (∀ tv sc ct pu : ℚ,
      calculateClinicalScore
          { therapeutic_validity := some tv, structural_completeness := some sc,
            clinical_tone := some ct, practical_utility := some pu }
        = round1 (10 * (35 / 100 * tv + 25 / 100 * sc
            + 20 / 100 * ct + 20 / 100 * pu))) ∧
    calculateClinicalScore
        { therapeutic_validity := some 8, structural_completeness := some 8,
          clinical_tone := some 8, practical_utility := some 8 } = 80 ∧
    (10 : ℚ) < calculateClinicalScore
        { therapeutic_validity := some 8, structural_completeness := some 8,
          clinical_tone := some 8, practical_utility := some 8 } ∧
    calculateClinicalScore
        { therapeutic_validity := none, structural_completeness := none,
          clinical_tone := none, practical_utility := none } = 5 ∧
    (∀ ev : ClinicalEval,
      ev ≠ { therapeutic_validity := none, structural_completeness := none,
             clinical_tone := none, practical_utility := none } →
      0 < (clinicalTotals ev).2 ∧
      calculateClinicalScore ev
        = round1 ((clinicalTotals ev).1 / (clinicalTotals ev).2
            * (1 / pyMaxQ clinicalWeightsSum 1) * 10)) := by
  have hform : ∀ tv sc ct pu : ℚ,
      calculateClinicalScore
          { therapeutic_validity := some tv, structural_completeness := some sc,
            clinical_tone := some ct, practical_utility := some pu }
        = round1 (10 * (35 / 100 * tv + 25 / 100 * sc
            + 20 / 100 * ct + 20 / 100 * pu)) := by
    intro tv sc ct pu
    simp only [calculateClinicalScore, clinicalTotals, dimContribution,
      clinicalWeightTV, clinicalWeightSC, clinicalWeightCT, clinicalWeightPU,
      clinicalWeightsSum]
    rw [if_pos (by norm_num)]
    congr 1
    norm_num [pyMaxQ]
    ring
  have h80 : calculateClinicalScore
      { therapeutic_validity := some 8, structural_completeness := some 8,
        clinical_tone := some 8, practical_utility := some 8 } = 80 := by
    rw [hform]
    norm_num [round1, pythonRoundInt]
  refine ⟨hform, h80, ?_, ?_, ?_⟩
  · rw [h80]
    norm_num
  · simp only [calculateClinicalScore, clinicalTotals, dimContribution]
    rw [if_neg (by norm_num)]
  · intro ev h
    obtain ⟨a, b, c, d⟩ := ev
    have hpos : 0 < (clinicalTotals ⟨a, b, c, d⟩).2 := by
      cases a <;> cases b <;> cases c <;> cases d <;>
        first
          | exact absurd rfl h
          | norm_num [clinicalTotals, dimContribution, clinicalWeightTV,
              clinicalWeightSC, clinicalWeightCT, clinicalWeightPU]
    refine ⟨hpos, ?_⟩
    simp only [calculateClinicalScore]
    rw [if_pos hpos]

theorem calculateClinicalScore_spec_witness :
    ({ therapeutic_validity := some 8, structural_completeness := none,
       clinical_tone := none, practical_utility := none } : ClinicalEval)
      ≠ { therapeutic_validity := none, structural_completeness := none,
          clinical_tone := none, practical_utility := none } ∧
    (0 < (clinicalTotals
        { therapeutic_validity := some 8, structural_completeness := none,
          clinical_tone := none, practical_utility := none }).2 ∧
     calculateClinicalScore
        { therapeutic_validity := some 8, structural_completeness := none,
          clinical_tone := none, practical_utility := none }
       = round1 ((clinicalTotals
            { therapeutic_validity := some 8, structural_completeness := none,
              clinical_tone := none, practical_utility := none }).1
          / (clinicalTotals
            { therapeutic_validity := some 8, structural_completeness := none,
              clinical_tone := none, practical_utility := none }).2
          * (1 / pyMaxQ clinicalWeightsSum 1) * 10)) :=
  ⟨by simp,
   calculateClinicalScore_spec.2.2.2.2
     { therapeutic_validity := some 8, structural_completeness := none,
       clinical_tone := none, practical_utility := none }
     (by simp)⟩

/-- C9: a raised exception inside the `process` of a step is not propagated:
`invoke` converts it into a delta holding exactly the appended error entry
(naming the agent and error) plus the active-agent stamp, and merging that
delta changes nothing but those two fields. -/
theorem agentInvoke_error_recovery (name ts e : String) (s : CerinaState) :
    agentInvoke name ts (Except.error e)
      = { emptyDelta with
          errors := ["Agent " ++ name ++ " error: " ++ e],
          active_agent := some name } ∧
    applyDelta s (agentInvoke name ts (Except.error e))
      = { s with
          errors := s.errors ++ ["Agent " ++ name ++ " error: " ++ e],
          active_agent := name } := by
  constructor
  · rfl
  · simp [applyDelta, agentInvoke, emptyDelta, merge_lists]

/-- C8: a rejected decision with non-empty edits overwrites the draft with
the edits, appends exactly one human draft version numbered
`len(draft_versions) + 1`, moves `approval_status` to `human_editing`, and
routing after the human-review node hands control back to the supervisor. -/
theorem resume_reject_edits_spec (s : CerinaState) (fb : Option String)
    (e ts : String) (he : e ≠ "") :
    (resumeUpdates false fb (some e) ts s).approval_status = some "human_editing" ∧
    (resumeUpdates false fb (some e) ts s).current_draft = some e ∧
    (resumeUpdates false fb (some e) ts s).draft_versions
      = [{ version := s.draft_versions.length + 1, content := e, agent := "human",
           timestamp := ts,
           changes_summary := some "Human revision - sent back for review" }] ∧
    (applyDelta s (resumeUpdates false fb (some e) ts s)).draft_versions
      = s.draft_versions
        ++ [{ version := s.draft_versions.length + 1, content := e, agent := "human",
              timestamp := ts,
              changes_summary := some "Human revision - sent back for review" }] ∧
    (applyDelta s (resumeUpdates false fb (some e) ts s)).current_draft = e ∧
    routeAfterHumanReview (applyDelta s (resumeUpdates false fb (some e) ts s))
      = WNode.supervisor := by
  have hb : pyTruthy (some e) = true := by
    simp [pyTruthy, he]
  simp [resumeUpdates, hb, applyDelta, merge_lists, routeAfterHumanReview]

theorem resume_reject_edits_spec_witness :
    ("edited draft" ≠ "") ∧
    ((resumeUpdates false none (some "edited draft") "ts" baseState).approval_status
        = some "human_editing" ∧
     (resumeUpdates false none (some "edited draft") "ts" baseState).current_draft
        = some "edited draft" ∧
     (resumeUpdates false none (some "edited draft") "ts" baseState).draft_versions
        = [{ version := baseState.draft_versions.length + 1, content := "edited draft",
             agent := "human", timestamp := "ts",
             changes_summary := some "Human revision - sent back for review" }] ∧
     (applyDelta baseState
        (resumeUpdates false none (some "edited draft") "ts" baseState)).draft_versions
        = baseState.draft_versions
          ++ [{ version := baseState.draft_versions.length + 1, content := "edited draft",
                agent := "human", timestamp := "ts",
                changes_summary := some "Human revision - sent back for review" }] ∧
     (applyDelta baseState
        (resumeUpdates false none (some "edited draft") "ts" baseState)).current_draft
        = "edited draft" ∧
     routeAfterHumanReview (applyDelta baseState
        (resumeUpdates false none (some "edited draft") "ts" baseState))
        = WNode.supervisor) :=
  ⟨by decide,
   resume_reject_edits_spec baseState none "edited draft" "ts" (by decide)⟩

theorem findCheckpoint_append_of_some {store : CheckpointStore} {tid id : String}
    {x : CheckpointRecord} (l' : CheckpointStore)
    (h : findCheckpoint store tid id = some x) :
    findCheckpoint (store ++ l') tid id = some x := by
  unfold findCheckpoint at h ⊢
  rw [List.find?_append, h]
  rfl

theorem walkToRoot_append {recs : CheckpointStore} {tid : String}
    (r : CheckpointRecord) :
    ∀ (fuel : Nat) (id : String) (root : CheckpointRecord),
      walkToRoot recs tid fuel id = some root →
      walkToRoot (recs ++ [r]) tid fuel id = some root := by
  intro fuel
  induction fuel with
  | zero =>
      intro id root h
      simp [walkToRoot] at h
  | succ n ih =>
      intro id root h
      unfold walkToRoot at h ⊢
      cases hf : findCheckpoint recs tid id with
      | none =>
          rw [hf] at h
          simp at h
      | some rec0 =>
          rw [hf] at h
          rw [findCheckpoint_append_of_some [r] hf]
          dsimp only at h ⊢
          cases hp : rec0.parent_checkpoint_id with
          | none =>
              rw [hp] at h
              exact h
          | some p =>
              rw [hp] at h
              exact ih p root h

theorem findCheckpoint_append_self {recs : CheckpointStore} {tid : String}
    {r : CheckpointRecord} (htid : r.thread_id = tid)
    (hfresh : r.checkpoint_id ∉ checkpointIds recs tid) :
    findCheckpoint (recs ++ [r]) tid r.checkpoint_id = some r := by
  unfold findCheckpoint
  rw [List.find?_append]
  have hnone : recs.find?
      (fun x => x.thread_id == tid && x.checkpoint_id == r.checkpoint_id) = none := by
    rw [List.find?_eq_none]
    intro x hx hpx
    simp only [Bool.and_eq_true, beq_iff_eq] at hpx
    apply hfresh
    unfold checkpointIds
    exact List.mem_map.mpr
      ⟨x, List.mem_filter.mpr ⟨hx, by simp [hpx.1]⟩, hpx.2⟩
  rw [hnone]
  simp [htid]

theorem headChain_root (tid : String) :
    ∀ (recs : CheckpointStore) (head : Option String),
      HeadChain tid recs head →
      (head = none → recs = []) ∧
      (∀ h : String, head = some h →
        ∃ root : CheckpointRecord,
          walkToRoot recs tid recs.length h = some root ∧
          root.parent_checkpoint_id = none ∧
          (recs.filter (fun r => r.parent_checkpoint_id.isNone)).length = 1) := by
  intro recs head hc
  induction hc with
  | nil =>
      refine ⟨fun _ => rfl, ?_⟩
      intro h heq
      exact absurd heq (by simp)
  | put r hc htid hpar hfresh ih =>
      rename_i recs0 head0
      refine ⟨fun heq => absurd heq (by simp), ?_⟩
      intro h heq
      have hh : h = r.checkpoint_id := by
        injection heq.symm
      subst hh
      have hlen : (recs0 ++ [r]).length = recs0.length + 1 := by
        simp
      rw [hlen]
      unfold walkToRoot
      rw [findCheckpoint_append_self htid hfresh]
      dsimp only
      cases head0 with
      | none =>
          have hnil : recs0 = [] := ih.1 rfl
          subst hnil
          rw [hpar]
          refine ⟨r, rfl, hpar, ?_⟩
          simp [List.filter, hpar]
      | some h0 =>
          obtain ⟨root, hwalk, hroot, hcount⟩ := ih.2 h0 rfl
          rw [hpar]
          refine ⟨root, walkToRoot_append r recs0.length h0 root hwalk, hroot, ?_⟩
          rw [List.filter_append]
          simp [List.filter, hpar, hcount]

/-- C7: `put` always inserts exactly one fresh checkpoint row — existing rows
are neither modified nor deleted — whose parent is the checkpoint id carried
in the supplied config; consequently, for a thread whose puts each carry the
current head (null for the first), walking `parent_checkpoint_id` pointers
from the latest checkpoint reaches exactly one checkpoint with a null
parent. -/
theorem putCheckpoint_chain_integrity :
    (∀ (store : CheckpointStore) (tid : String) (parent : Option String)
        (newId data meta : String),
      (putCheckpoint store tid parent newId data meta).1
        = store ++ [{ thread_id := tid, checkpoint_id := newId,
                      parent_checkpoint_id := parent,
                      checkpoint_data := data, checkpoint_metadata := meta }] ∧
      (putCheckpoint store tid parent newId data meta).2 = (tid, newId)) ∧
    (∀ (tid : String) (recs : CheckpointStore) (h : String),
      HeadChain tid recs (some h) →
      ∃ root : CheckpointRecord,
        walkToRoot recs tid recs.length h = some root ∧
        root.parent_checkpoint_id = none ∧
        (recs.filter (fun r => r.parent_checkpoint_id.isNone)).length = 1) := by
  constructor
  · intro store tid parent newId data meta
    exact ⟨rfl, rfl⟩
  · intro tid recs h hc
    exact (headChain_root tid recs (some h) hc).2 h rfl

theorem putCheckpoint_chain_integrity_witness :
    HeadChain "t" [ckpt1, ckpt2] (some "c2") ∧
    (∃ root : CheckpointRecord,
      walkToRoot [ckpt1, ckpt2] "t" ([ckpt1, ckpt2] : CheckpointStore).length "c2"
        = some root ∧
      root.parent_checkpoint_id = none ∧
      (([ckpt1, ckpt2] : CheckpointStore).filter
        (fun r => r.parent_checkpoint_id.isNone)).length = 1) :=
  have hchain : HeadChain "t" [ckpt1, ckpt2] (some "c2") :=
    @HeadChain.put "t" [ckpt1] (some "c1") ckpt2
      (@HeadChain.put "t" [] none ckpt1
        HeadChain.nil rfl rfl (by decide))
      rfl rfl (by decide)
  ⟨hchain, putCheckpoint_chain_integrity.2 "t" [ckpt1, ckpt2] "c2" hchain⟩

theorem applyDelta_iteration_none (s : CerinaState) (d : Delta)
    (h : d.iteration_count = none) :
    (applyDelta s d).iteration_count = s.iteration_count := by
  show d.iteration_count.getD s.iteration_count = s.iteration_count
  rw [h]
  rfl

theorem applyDelta_max_none (s : CerinaState) (d : Delta)
    (h : d.max_iterations = none) :
    (applyDelta s d).max_iterations = s.max_iterations := by
  show d.max_iterations.getD s.max_iterations = s.max_iterations
  rw [h]
  rfl

theorem agentInvoke_map_iteration_none (name ts : String)
    (res : Except String AgentOutput) :
    (agentInvoke name ts (res.map AgentOutput.toDelta)).iteration_count = none := by
  cases res <;> rfl

theorem agentInvoke_map_max_none (name ts : String)
    (res : Except String AgentOutput) :
    (agentInvoke name ts (res.map AgentOutput.toDelta)).max_iterations = none := by
  cases res <;> rfl

theorem resumeUpdates_iteration_none (a : Bool) (fb ed : Option String)
    (ts : String) (cur : CerinaState) :
    (resumeUpdates a fb ed ts cur).iteration_count = none := by
  unfold resumeUpdates
  split <;> split <;> rfl

theorem resumeUpdates_max_none (a : Bool) (fb ed : Option String)
    (ts : String) (cur : CerinaState) :
    (resumeUpdates a fb ed ts cur).max_iterations = none := by
  unfold resumeUpdates
  split <;> split <;> rfl

theorem supervisorStepState_iteration (st : Settings) (s : CerinaState)
    (sug reasoning ts : String) :
    (supervisorStepState st s sug reasoning ts).iteration_count
      = supervisorNextIter st sug s := rfl

theorem supervisorStepState_max (st : Settings) (s : CerinaState)
    (sug reasoning ts : String) :
    (supervisorStepState st s sug reasoning ts).max_iterations
      = s.max_iterations := rfl

theorem supervisorStepState_decisions (st : Settings) (s : CerinaState)
    (sug reasoning ts : String) :
    (supervisorStepState st s sug reasoning ts).supervisor_decisions
      = s.supervisor_decisions ++ [supervisorRecord st s sug reasoning ts] := rfl

theorem routeFromSupervisor_step (st : Settings) (s : CerinaState)
    (sug reasoning ts : String) :
    routeFromSupervisor (supervisorStepState st s sug reasoning ts)
      = routeMapNode (applyDecision st sug s).1 := by
  unfold routeFromSupervisor
  rw [supervisorStepState_decisions, List.getLast?_concat]
  rfl

theorem routeMapNode_ne_supervisor (x : String) :
    routeMapNode x ≠ WNode.supervisor := by
  unfold routeMapNode
  repeat' split
  all_goals simp

theorem routeMapNode_eq_humanReview {x : String}
    (h : routeMapNode x = WNode.humanReview) : x = "human_review" := by
  unfold routeMapNode at h
  repeat' split at h
  all_goals simp_all

theorem routeAfterHumanReview_ne_hr (s : CerinaState) :
    routeAfterHumanReview s ≠ WNode.humanReview := by
  unfold routeAfterHumanReview
  repeat' split
  all_goals simp

theorem shouldContinue_iter_le {s : CerinaState}
    (h : shouldContinueToSupervisor s = true) :
    s.iteration_count ≤ s.max_iterations + 2 := by
  unfold shouldContinueToSupervisor at h
  split at h
  · simp at h
  · split at h
    · simp at h
    · split at h
      · simp at h
      · rename_i h3
        exact Nat.not_lt.mp h3

/-- C6: across every workflow step, `iteration_count` never decreases; it
grows by exactly 1, in the delta of the supervisor, precisely when the supervisor
routes to drafting while a draft already exists, and the delta of no
other node touches it. -/
theorem step_iteration_monotonic (st : Settings) (c c' : WNode × CerinaState)
    (e : WEvent) (h : step st c e = some c') :
    c.2.iteration_count ≤ c'.2.iteration_count ∧
    c'.2.iteration_count ≤ c.2.iteration_count + 1 ∧
    (c'.2.iteration_count = c.2.iteration_count + 1 →
      c.1 = WNode.supervisor ∧ c.2.current_draft ≠ "" ∧
      ∃ sug reasoning ts, e = WEvent.supervisorTurn sug reasoning ts ∧
        (applyDecision st sug c.2).1 = "drafting") ∧
    (∀ sug reasoning ts, e = WEvent.supervisorTurn sug reasoning ts →
      (applyDecision st sug c.2).1 = "drafting" → c.2.current_draft ≠ "" →
      c'.2.iteration_count = c.2.iteration_count + 1) := by
  obtain ⟨n, s⟩ := c
  obtain ⟨n', s'⟩ := c'
  cases n <;> cases e
  case supervisor.supervisorTurn sug reasoning ts =>
    simp only [step, Option.some.injEq, Prod.mk.injEq] at h
    obtain ⟨hn, hs⟩ := h
    subst hn
    subst hs
    simp only [supervisorStepState_iteration]
    have hiter : supervisorNextIter st sug s
        = if (applyDecision st sug s).1 = "drafting" ∧ s.current_draft ≠ "" then
            s.iteration_count + 1
          else s.iteration_count := rfl
    by_cases hc : (applyDecision st sug s).1 = "drafting" ∧ s.current_draft ≠ ""
    · rw [hiter, if_pos hc]
      refine ⟨Nat.le_succ _, le_refl _,
        fun _ => ⟨by trivial, hc.2, sug, reasoning, ts, by trivial, hc.1⟩, ?_⟩
      intro sug' reas' ts' heq h1 h2
      rfl
    · rw [hiter, if_neg hc]
      refine ⟨le_refl _, Nat.le_succ _,
        fun habs => (Nat.succ_ne_self s.iteration_count habs.symm).elim, ?_⟩
      intro sug' reas' ts' heq h1 h2
      injection heq with e1 e2 e3
      subst e1
      exact absurd ⟨h1, h2⟩ hc
  case drafting.agentTurn ts res =>
    simp only [step, agentNodeStep, Option.some.injEq, Prod.mk.injEq] at h
    obtain ⟨hn, hs⟩ := h
    subst hn
    subst hs
    rw [applyDelta_iteration_none _ _ (agentInvoke_map_iteration_none _ _ _)]
    exact ⟨le_refl _, Nat.le_succ _,
      fun habs => (Nat.succ_ne_self s.iteration_count habs.symm).elim,
      fun sug' reas' ts' heq _ _ => WEvent.noConfusion heq⟩
  case clinicalCritic.agentTurn ts res =>
    simp only [step, agentNodeStep, Option.some.injEq, Prod.mk.injEq] at h
    obtain ⟨hn, hs⟩ := h
    subst hn
    subst hs
    rw [applyDelta_iteration_none _ _ (agentInvoke_map_iteration_none _ _ _)]
    exact ⟨le_refl _, Nat.le_succ _,
      fun habs => (Nat.succ_ne_self s.iteration_count habs.symm).elim,
      fun sug' reas' ts' heq _ _ => WEvent.noConfusion heq⟩
  case safetyGuardian.agentTurn ts res =>
    simp only [step, agentNodeStep, Option.some.injEq, Prod.mk.injEq] at h
    obtain ⟨hn, hs⟩ := h
    subst hn
    subst hs
    rw [applyDelta_iteration_none _ _ (agentInvoke_map_iteration_none _ _ _)]
    exact ⟨le_refl _, Nat.le_succ _,
      fun habs => (Nat.succ_ne_self s.iteration_count habs.symm).elim,
      fun sug' reas' ts' heq _ _ => WEvent.noConfusion heq⟩
  case empathy.agentTurn ts res =>
    simp only [step, agentNodeStep, Option.some.injEq, Prod.mk.injEq] at h
    obtain ⟨hn, hs⟩ := h
    subst hn
    subst hs
    rw [applyDelta_iteration_none _ _ (agentInvoke_map_iteration_none _ _ _)]
    exact ⟨le_refl _, Nat.le_succ _,
      fun habs => (Nat.succ_ne_self s.iteration_count habs.symm).elim,
      fun sug' reas' ts' heq _ _ => WEvent.noConfusion heq⟩
  case humanReview.humanDecision approved fb ed ts =>
    simp only [step, Option.some.injEq, Prod.mk.injEq] at h
    obtain ⟨hn, hs⟩ := h
    subst hn
    subst hs
    rw [applyDelta_iteration_none _ _ rfl,
      applyDelta_iteration_none _ _ (resumeUpdates_iteration_none _ _ _ _ _)]
    exact ⟨le_refl _, Nat.le_succ _,
      fun habs => (Nat.succ_ne_self s.iteration_count habs.symm).elim,
      fun sug' reas' ts' heq _ _ => WEvent.noConfusion heq⟩
  case finalize.tick ts =>
    simp only [step, Option.some.injEq, Prod.mk.injEq] at h
    obtain ⟨hn, hs⟩ := h
    subst hn
    subst hs
    rw [applyDelta_iteration_none _ _ rfl]
    exact ⟨le_refl _, Nat.le_succ _,
      fun habs => (Nat.succ_ne_self s.iteration_count habs.symm).elim,
      fun sug' reas' ts' heq _ _ => WEvent.noConfusion heq⟩
  all_goals simp [step] at h

theorem step_iteration_monotonic_witness :
    step defaultSettings (WNode.supervisor, baseState)
        (WEvent.supervisorTurn "clinical_critic" "r" "t") = some c6WitC ∧
    ((WNode.supervisor, baseState).2.iteration_count ≤ c6WitC.2.iteration_count ∧
     c6WitC.2.iteration_count ≤ (WNode.supervisor, baseState).2.iteration_count + 1 ∧
     (c6WitC.2.iteration_count = (WNode.supervisor, baseState).2.iteration_count + 1 →
       (WNode.supervisor, baseState).1 = WNode.supervisor ∧
       (WNode.supervisor, baseState).2.current_draft ≠ "" ∧
       ∃ sug reasoning ts,
         WEvent.supervisorTurn "clinical_critic" "r" "t"
           = WEvent.supervisorTurn sug reasoning ts ∧
         (applyDecision defaultSettings sug (WNode.supervisor, baseState).2).1
           = "drafting") ∧
     (∀ sug reasoning ts,
       WEvent.supervisorTurn "clinical_critic" "r" "t"
         = WEvent.supervisorTurn sug reasoning ts →
       (applyDecision defaultSettings sug (WNode.supervisor, baseState).2).1
         = "drafting" →
       (WNode.supervisor, baseState).2.current_draft ≠ "" →
       c6WitC.2.iteration_count
         = (WNode.supervisor, baseState).2.iteration_count + 1)) :=
  ⟨rfl,
   step_iteration_monotonic defaultSettings (WNode.supervisor, baseState) c6WitC
     (WEvent.supervisorTurn "clinical_critic" "r" "t") rfl⟩

theorem supervisorNextIter_le (st : Settings) (sug : String) (s : CerinaState) :
    supervisorNextIter st sug s ≤ s.iteration_count + 1 := by
  unfold supervisorNextIter
  split
  · exact le_refl _
  · exact Nat.le_succ _

theorem iterInv_step (st : Settings) {c c' : WNode × CerinaState} {e : WEvent}
    (h : step st c e = some c') (hinv : IterInv c) : IterInv c' := by
  obtain ⟨n, s⟩ := c
  obtain ⟨n', s'⟩ := c'
  obtain ⟨hb, hg⟩ := hinv
  dsimp only at hb hg
  cases n <;> cases e
  case supervisor.supervisorTurn sug reasoning ts =>
    simp only [step, Option.some.injEq, Prod.mk.injEq] at h
    obtain ⟨hn, hs⟩ := h
    subst hn
    subst hs
    have hpre : s.iteration_count ≤ s.max_iterations + 2 := hg (Or.inl rfl)
    simp only [IterInv]
    constructor
    · rw [supervisorStepState_iteration, supervisorStepState_max]
      have h1 := supervisorNextIter_le st sug s
      omega
    · intro hor
      rw [routeFromSupervisor_step] at hor
      cases hor with
      | inl habs => exact absurd habs (routeMapNode_ne_supervisor _)
      | inr hhr =>
          have hx : (applyDecision st sug s).1 = "human_review" :=
            routeMapNode_eq_humanReview hhr
          rw [supervisorStepState_iteration, supervisorStepState_max]
          have hsame : supervisorNextIter st sug s = s.iteration_count := by
            unfold supervisorNextIter
            rw [if_neg]
            intro hand
            rw [hx] at hand
            exact absurd hand.1 (by decide)
          rw [hsame]
          exact hpre
  case drafting.agentTurn ts res =>
    simp only [step, agentNodeStep, Option.some.injEq, Prod.mk.injEq] at h
    obtain ⟨hn, hs⟩ := h
    subst hn
    subst hs
    have hct := applyDelta_iteration_none s _ (agentInvoke_map_iteration_none "drafting" ts res)
    have hmx := applyDelta_max_none s _ (agentInvoke_map_max_none "drafting" ts res)
    simp only [IterInv]
    constructor
    · rw [hct, hmx]
      omega
    · intro hor
      by_cases hcont : shouldContinueToSupervisor
          (applyDelta s (agentInvoke "drafting" ts (res.map AgentOutput.toDelta))) = true
      · exact shouldContinue_iter_le hcont
      · have hfalse : shouldContinueToSupervisor
            (applyDelta s (agentInvoke "drafting" ts (res.map AgentOutput.toDelta))) = false := by
          cases hsc : shouldContinueToSupervisor
              (applyDelta s (agentInvoke "drafting" ts (res.map AgentOutput.toDelta)))
          · rfl
          · exact absurd hsc hcont
        rw [hfalse] at hor
        simp at hor
  case clinicalCritic.agentTurn ts res =>
    simp only [step, agentNodeStep, Option.some.injEq, Prod.mk.injEq] at h
    obtain ⟨hn, hs⟩ := h
    subst hn
    subst hs
    have hct := applyDelta_iteration_none s _ (agentInvoke_map_iteration_none "clinical_critic" ts res)
    have hmx := applyDelta_max_none s _ (agentInvoke_map_max_none "clinical_critic" ts res)
    simp only [IterInv]
    constructor
    · rw [hct, hmx]
      omega
    · intro hor
      by_cases hcont : shouldContinueToSupervisor
          (applyDelta s (agentInvoke "clinical_critic" ts (res.map AgentOutput.toDelta))) = true
      · exact shouldContinue_iter_le hcont
      · have hfalse : shouldContinueToSupervisor
            (applyDelta s (agentInvoke "clinical_critic" ts (res.map AgentOutput.toDelta))) = false := by
          cases hsc : shouldContinueToSupervisor
              (applyDelta s (agentInvoke "clinical_critic" ts (res.map AgentOutput.toDelta)))
          · rfl
          · exact absurd hsc hcont
        rw [hfalse] at hor
        simp at hor
  case safetyGuardian.agentTurn ts res =>
    simp only [step, agentNodeStep, Option.some.injEq, Prod.mk.injEq] at h
    obtain ⟨hn, hs⟩ := h
    subst hn
    subst hs
    have hct := applyDelta_iteration_none s _ (agentInvoke_map_iteration_none "safety_guardian" ts res)
    have hmx := applyDelta_max_none s _ (agentInvoke_map_max_none "safety_guardian" ts res)
    simp only [IterInv]
    constructor
    · rw [hct, hmx]
      omega
    · intro hor
      by_cases hcont : shouldContinueToSupervisor
          (applyDelta s (agentInvoke "safety_guardian" ts (res.map AgentOutput.toDelta))) = true
      · exact shouldContinue_iter_le hcont
      · have hfalse : shouldContinueToSupervisor
            (applyDelta s (agentInvoke "safety_guardian" ts (res.map AgentOutput.toDelta))) = false := by
          cases hsc : shouldContinueToSupervisor
              (applyDelta s (agentInvoke "safety_guardian" ts (res.map AgentOutput.toDelta)))
          · rfl
          · exact absurd hsc hcont
        rw [hfalse] at hor
        simp at hor
  case empathy.agentTurn ts res =>
    simp only [step, agentNodeStep, Option.some.injEq, Prod.mk.injEq] at h
    obtain ⟨hn, hs⟩ := h
    subst hn
    subst hs
    have hct := applyDelta_iteration_none s _ (agentInvoke_map_iteration_none "empathy" ts res)
    have hmx := applyDelta_max_none s _ (agentInvoke_map_max_none "empathy" ts res)
    simp only [IterInv]
    constructor
    · rw [hct, hmx]
      omega
    · intro hor
      by_cases hcont : shouldContinueToSupervisor
          (applyDelta s (agentInvoke "empathy" ts (res.map AgentOutput.toDelta))) = true
      · exact shouldContinue_iter_le hcont
      · have hfalse : shouldContinueToSupervisor
            (applyDelta s (agentInvoke "empathy" ts (res.map AgentOutput.toDelta))) = false := by
          cases hsc : shouldContinueToSupervisor
              (applyDelta s (agentInvoke "empathy" ts (res.map AgentOutput.toDelta)))
          · rfl
          · exact absurd hsc hcont
        rw [hfalse] at hor
        simp at hor
  case humanReview.humanDecision approved fb ed ts =>
    simp only [step, Option.some.injEq, Prod.mk.injEq] at h
    obtain ⟨hn, hs⟩ := h
    subst hn
    subst hs
    have hpre : s.iteration_count ≤ s.max_iterations + 2 := hg (Or.inr rfl)
    have hct : (applyDelta (applyDelta s (resumeUpdates approved fb ed ts s))
        (humanReviewNodeDelta ts)).iteration_count = s.iteration_count := by
      rw [applyDelta_iteration_none _ _ rfl,
        applyDelta_iteration_none _ _ (resumeUpdates_iteration_none _ _ _ _ _)]
    have hmx : (applyDelta (applyDelta s (resumeUpdates approved fb ed ts s))
        (humanReviewNodeDelta ts)).max_iterations = s.max_iterations := by
      rw [applyDelta_max_none _ _ rfl,
        applyDelta_max_none _ _ (resumeUpdates_max_none _ _ _ _ _)]
    simp only [IterInv]
    constructor
    · rw [hct, hmx]
      omega
    · intro hor
      cases hor with
      | inl hsup =>
          rw [hct, hmx]
          exact hpre
      | inr hhr => exact absurd hhr (routeAfterHumanReview_ne_hr _)
  case finalize.tick ts =>
    simp only [step, Option.some.injEq, Prod.mk.injEq] at h
    obtain ⟨hn, hs⟩ := h
    subst hn
    subst hs
    have hct : (applyDelta s (finalizeDelta ts)).iteration_count = s.iteration_count :=
      applyDelta_iteration_none _ _ rfl
    have hmx : (applyDelta s (finalizeDelta ts)).max_iterations = s.max_iterations :=
      applyDelta_max_none _ _ rfl
    simp only [IterInv]
    constructor
    · rw [hct, hmx]
      omega
    · intro hor
      rcases hor with hx | hx <;> exact WNode.noConfusion hx
  all_goals simp [step] at h

theorem reach_iterInv (st : Settings) {c : WNode × CerinaState}
    (h : Reach st c) : IterInv c := by
  induction h with
  | init ui tid pid ctx now => exact ⟨Nat.zero_le _, fun _ => Nat.zero_le _⟩
  | next hr hs ih => exact iterInv_step st hs ih

theorem runSteps_reach (st : Settings) {c c' : WNode × CerinaState}
    {es : List WEvent} (h : Reach st c) (hr : runSteps st c es = some c') :
    Reach st c' := by
  induction es generalizing c with
  | nil =>
      simp only [runSteps, Option.some.injEq] at hr
      exact hr ▸ h
  | cons e es ih =>
      unfold runSteps at hr
      cases hstep : step st c e with
      | none =>
          rw [hstep] at hr
          simp at hr
      | some c1 =>
          rw [hstep] at hr
          exact ih (Reach.next h hstep) hr

/-- C3 (amended): the post-step guard ends the run exactly when
`approval_status` is approved or rejected or `iteration_count` exceeds
`max_iterations + 2`; along every reachable configuration of a run,
`iteration_count ≤ max_iterations + 3`.  The bound `max_iterations + 2`
claimed by the spec does not hold: the critical-flag override of the supervisor
(Rule 2) precedes its iteration cap (Rule 3), so the supervisor can increment
the count one step past the guard threshold before the next guard check ends
the run. -/
theorem guard_and_iteration_bound :
    (∀ s : CerinaState,
      shouldContinueToSupervisor s = false ↔
        (s.approval_status = "approved" ∨ s.approval_status = "rejected" ∨
         s.max_iterations + 2 < s.iteration_count)) ∧
    (∀ (st : Settings) (c : WNode × CerinaState),
      Reach st c → c.2.iteration_count ≤ c.2.max_iterations + 3) := by
  constructor
  · intro s
    unfold shouldContinueToSupervisor
    split
    · rename_i h1
      simp [h1]
    · split
      · rename_i h2
        simp [h2]
      · split
        · rename_i h3
          simp [h3]
        · rename_i h1 h2 h3
          simp [h1, h2, h3]
  · intro st c h
    exact (reach_iterInv st h).1

theorem guard_and_iteration_bound_witness :
    (shouldContinueToSupervisor baseState = false ↔
      (baseState.approval_status = "approved" ∨
       baseState.approval_status = "rejected" ∨
       baseState.max_iterations + 2 < baseState.iteration_count)) ∧
    (WNode.supervisor, baseState).2.iteration_count
      ≤ (WNode.supervisor, baseState).2.max_iterations + 3 :=
  ⟨guard_and_iteration_bound.1 baseState,
   guard_and_iteration_bound.2 defaultSettings (WNode.supervisor, baseState)
     (Reach.init "Create a CBT protocol" "thread-1" "proto-1" none
       "2024-01-01T00:00:00")⟩

/-- C3 counterexample: a reachable configuration that is neither terminal nor
the human-review interrupt whose `iteration_count` (8) exceeds
`max_iterations + 2` (7), refuting the claimed bound. -/
theorem iteration_bound_cex :
    ∃ c : WNode × CerinaState,
      Reach defaultSettings c ∧
      c.1 ≠ WNode.done ∧ c.1 ≠ WNode.humanReview ∧
      c.2.max_iterations + 2 < c.2.iteration_count := by
  have heval : (runSteps defaultSettings (WNode.supervisor, baseState) cexEvents).map
      (fun c => (c.1, c.2.iteration_count, c.2.max_iterations))
      = some (WNode.drafting, 8, 5) := by rfl
  cases hrs : runSteps defaultSettings (WNode.supervisor, baseState) cexEvents with
  | none =>
      rw [hrs] at heval
      exact absurd heval (by simp)
  | some c =>
      rw [hrs] at heval
      simp only [Option.map_some', Option.some.injEq, Prod.mk.injEq] at heval
      obtain ⟨hn, hcount, hmax⟩ := heval
      refine ⟨c, runSteps_reach defaultSettings
        (Reach.init "Create a CBT protocol" "thread-1" "proto-1" none
          "2024-01-01T00:00:00") hrs, ?_, ?_, ?_⟩
      · rw [hn]
        exact fun hx => WNode.noConfusion hx
      · rw [hn]
        exact fun hx => WNode.noConfusion hx
      · rw [hcount, hmax]
        omega
